import Mathlib

/-!
Verification of the cursor-paginated query engine of the tsj-app repository.

The embedding models:
* the Firestore-backed page fetch primitive `FirestoreService.getPaged`
  (src/src/components/Table.tsx, `FirestoreService` section),
* the pagination session state and handlers `fetchPage` / `onNext` / `onPrev`
  of the `Table` component (src/src/components/Table.tsx),
* the filter-selection state machine of the `Table` component
  (the four filter buttons and the three guarded inputs),
* the query-constraint builders (`constraints` memo) and the order-by pinning
  of both the current component (src/src/components/Table.tsx) and the legacy
  variant (src/unnamed/part_000).

Strings that flow into the store are modelled as lists of Unicode codepoints
(`List Nat`), ordered lexicographically by codepoint, which matches the
UTF-8 byte ordering Firestore uses for strings.
-/

namespace TsjApp

/-- Lexicographic codepoint order on strings (Firestore string ordering:
UTF-8 byte order, which coincides with codepoint order). -/
def lexLe : List Nat → List Nat → Bool
  | [], _ => true
  | _ :: _, [] => false
  | a :: as, b :: bs => if a < b then true else if b < a then false else lexLe as bs

/-- A Firestore field value as used by this app: a string (codepoint list)
or a number. -/
inductive FsValue where
  | s (v : List Nat)
  | n (v : Int)
deriving DecidableEq

/-- Firestore value order restricted to the value shapes this app stores
(numbers sort before strings across types; only same-type comparisons are
exercised by the claims). -/
def fsLe : FsValue → FsValue → Bool
  | .s a, .s b => lexLe a b
  | .n a, .n b => decide (a ≤ b)
  | .n _, .s _ => true
  | .s _, .n _ => false

/-- A stored document: its identity (modelling the store-assigned document
name, as a rank) and its fields as an association list. -/
structure Doc where
  id : Nat
  fields : List (String × FsValue)
deriving DecidableEq

/-- Field lookup on a document. -/
def getField (d : Doc) (f : String) : Option FsValue :=
  (d.fields.find? (fun kv => kv.1 = f)).map (fun kv => kv.2)

/-- A `where(...)` constraint as produced by the `constraints` memos:
equality, lower range bound, or upper range bound on a field. -/
inductive WhereFilter where
  | eq (field : String) (v : FsValue)
  | ge (field : String) (v : FsValue)
  | le (field : String) (v : FsValue)
deriving DecidableEq

/-- Whether a document satisfies one `where` constraint (a document missing
the field is excluded, as in Firestore). -/
def matchesWhere (d : Doc) : WhereFilter → Bool
  | .eq f v => match getField d f with
    | some x => decide (x = v)
    | none => false
  | .ge f v => match getField d f with
    | some x => fsLe v x
    | none => false
  | .le f v => match getField d f with
    | some x => fsLe x v
    | none => false

/-- Sort direction, `orderBy`'s second argument ("asc" | "desc"). -/
inductive SortDir where
  | asc
  | desc
deriving DecidableEq

/-- The total order the store sorts results by: the order-by field's value
in the requested direction, ties broken by document identity (Firestore
implicitly appends the document name as the final sort key, in the same
direction). -/
def docLe (f : String) (dir : SortDir) (d1 d2 : Doc) : Bool :=
  match getField d1 f, getField d2 f with
  | some a, some b =>
      if a = b then
        match dir with
        | .asc => decide (d1.id ≤ d2.id)
        | .desc => decide (d2.id ≤ d1.id)
      else
        match dir with
        | .asc => fsLe a b
        | .desc => fsLe b a
  | _, _ => true

/-- Insert into a sorted list (helper for the store's ordered results). -/
def insertSorted (le : Doc → Doc → Bool) (d : Doc) : List Doc → List Doc
  | [] => [d]
  | x :: xs => if le d x then d :: x :: xs else x :: insertSorted le d xs

/-- Sort the store's matching documents (insertion sort; the order produced
is the store's deterministic (field value, document id) order, see `docLe`). -/
def sortDocs (le : Doc → Doc → Bool) : List Doc → List Doc
  | [] => []
  | x :: xs => insertSorted le x (sortDocs le xs)

/-- The ordered result stream of a store query before the limit is applied:
filter by all `where` constraints (and by presence of the order-by field,
as Firestore's `orderBy` does), sort, then drop everything up to and
including the `startAfter` snapshot's position. -/
def queryDocs (db : List Doc) (orderByField : String) (dir : SortDir)
    (cs : List WhereFilter) (startAfterSnapshot : Option Doc) : List Doc :=
  let filtered := db.filter
    (fun d => cs.all (fun w => matchesWhere d w) && (getField d orderByField).isSome)
  let sorted := sortDocs (docLe orderByField dir) filtered
  match startAfterSnapshot with
  | none => sorted
  | some d => (sorted.dropWhile (fun x => !(decide (x = d)))).drop 1

/-- The result of `FirestoreService.getPaged`: the page of documents and the
cursor for the next page (or `none`). -/
structure Page where
  data : List Doc
  nextCursor : Option Doc
deriving DecidableEq

/-- The final lines of `FirestoreService.getPaged`: take `pageSize` documents,
let `lastDoc` be the last of them (or null), and return
`nextCursor = lastDoc && data.length === pageSize ? lastDoc : null`. -/
def pageOf (docs : List Doc) (pageSize : Nat) : Page :=
  let data := docs.take pageSize
  let lastDoc := data.getLast?
  let nextCursor := match lastDoc with
    | some d => if data.length = pageSize then some d else none
    | none => none
  { data := data, nextCursor := nextCursor }

/-- `FirestoreService.getPaged` (src/src/components/Table.tsx, FirestoreService
section): run the store query with the given constraints, order-by, limit and
optional start-after snapshot, and package the page. `db` stands for the
contents of the named collection; the app always passes an order-by field. -/
def getPaged (db : List Doc) (pageSize : Nat) (orderByField : String)
    (dir : SortDir) (startAfterSnapshot : Option Doc) (cs : List WhereFilter) : Page :=
  pageOf (queryDocs db orderByField dir cs startAfterSnapshot) pageSize

/-! ### Pagination session (Table component state and handlers) -/

/-- The session state of the `Table` component that the pagination claims are
about: `rows`, `nextCursor`, `cursorStack` and `err` (the `loading` flag is
presentational: it is set `true` on entry and `false` in `finally`, ending
every call at `false`, and no claim mentions it). -/
structure SessionState where
  rows : List Doc
  nextCursor : Option Doc
  cursorStack : List Doc
  err : Option String
deriving DecidableEq

/-- A value thrown by a failing store call: either a JS `Error` (carrying a
message) or any non-`Error` value. -/
inductive Thrown where
  | jsError (message : String)
  | nonError
deriving DecidableEq

/-- Line `const message = e instanceof Error ? e.message : "Error cargando datos"`
of `fetchPage`. -/
def thrownMessage : Thrown → String
  | .jsError m => m
  | .nonError => "Error cargando datos"

/-- The state transition of one `fetchPage(reset, startAfterSnapshot)` call,
given the store call's outcome. On success: store the page as
`rows`/`nextCursor`, clear `err`, and if `reset` set
`cursorStack = startAfterSnapshot ? [startAfterSnapshot] : []`. On a thrown
error: only `err` is assigned (the `setRows`/`setNextCursor`/`setCursorStack`
calls sit after the `await` inside the `try`, so they do not run). -/
def fetchPageStep (st : SessionState) (reset : Bool)
    (startAfterSnapshot : Option Doc) (result : Except Thrown Page) : SessionState :=
  match result with
  | .ok p =>
      { rows := p.data
        nextCursor := p.nextCursor
        cursorStack :=
          if reset then
            match startAfterSnapshot with
            | some c => [c]
            | none => []
          else st.cursorStack
        err := none }
  | .error e => { st with err := some (thrownMessage e) }

/-- Handler `onNext`: no-op when `nextCursor` is null; otherwise push
`nextCursor` onto `cursorStack` and then run
`fetchPage(false, nextCursor)`. The push happens before the fetch. -/
def onNextStep (fetch : Option Doc → Except Thrown Page) (st : SessionState) : SessionState :=
  match st.nextCursor with
  | none => st
  | some c =>
      fetchPageStep { st with cursorStack := st.cursorStack ++ [c] }
        false (some c) (fetch (some c))

/-- Handler `onPrev`: no-op when `cursorStack` is empty; otherwise pop the
top, then run `fetchPage(false, newTop)` where `newTop` is the new top of the
stack (or undefined when the popped stack is empty). The pop happens before
the fetch. -/
def onPrevStep (fetch : Option Doc → Except Thrown Page) (st : SessionState) : SessionState :=
  if st.cursorStack.isEmpty then st
  else
    let newStack := st.cursorStack.dropLast
    let newStartAfter := newStack.getLast?
    fetchPageStep { st with cursorStack := newStack } false newStartAfter (fetch newStartAfter)

/-- The reset entry point `fetchPage(true)` — run by the
`useEffect([orderByField, order, constraints])` hook and by the Aplicar
button — always with no start-after snapshot. -/
def resetFetchStep (fetch : Option Doc → Except Thrown Page) (st : SessionState) : SessionState :=
  fetchPageStep st true none (fetch none)

/-- A store that never fails: every fetch runs `getPaged` against a fixed
database under a fixed plan (same constraints, order-by and page size). -/
def okFetch (db : List Doc) (pageSize : Nat) (orderByField : String)
    (dir : SortDir) (cs : List WhereFilter) : Option Doc → Except Thrown Page :=
  fun sa => Except.ok (getPaged db pageSize orderByField dir sa cs)

/-- The session state whose page was fetched starting after the top of the
cursor stack `s` (proof helper: every state reachable by successful
navigation has this shape). -/
def stateForFetch (p : Option Doc → Page) (s : List Doc) : SessionState :=
  { rows := (p s.getLast?).data
    nextCursor := (p s.getLast?).nextCursor
    cursorStack := s
    err := none }

/-! ### Filter-selection state machine (Table component UI) -/

/-- The active filter tag: `useState<"year" | "sala" | "exp" | null>`. -/
inductive FilterType where
  | year
  | sala
  | exp
deriving DecidableEq

/-- The filter-selection state of the `Table` component: the active filter
tag and the three text inputs (as codepoint strings). -/
structure UiState where
  activeFilterType : Option FilterType
  year : List Nat
  salaNum : List Nat
  expPfx : List Nat
deriving DecidableEq

/-- The initial component state: no active filter, all inputs empty. -/
def uiInit : UiState :=
  { activeFilterType := none, year := [], salaNum := [], expPfx := [] }

/-- The UI events that touch the filter-selection state: the four filter
buttons (the badge's clear button runs the same handler as the
"Sin filtro" button), the three inputs, and (representing every other
handler, none of which touches these four fields) the order toggle. -/
inductive UiEvent where
  | clickYear
  | clickSala
  | clickExp
  | clickNoFilter
  | typeYear (v : List Nat)
  | typeSala (v : List Nat)
  | typeExp (v : List Nat)
  | toggleOrder

/-- The component's event handlers. Each filter button sets the tag and
clears the other two inputs; the "Sin filtro"/badge-clear handler clears the
tag and all three inputs. Each input is rendered only while its tag is
active, so a type event under another tag cannot fire (modelled as a
no-op). -/
def uiStep (s : UiState) : UiEvent → UiState
  | .clickYear => { s with activeFilterType := some .year, salaNum := [], expPfx := [] }
  | .clickSala => { s with activeFilterType := some .sala, year := [], expPfx := [] }
  | .clickExp => { s with activeFilterType := some .exp, year := [], salaNum := [] }
  | .clickNoFilter => { activeFilterType := none, year := [], salaNum := [], expPfx := [] }
  | .typeYear v => if s.activeFilterType = some .year then { s with year := v } else s
  | .typeSala v => if s.activeFilterType = some .sala then { s with salaNum := v } else s
  | .typeExp v => if s.activeFilterType = some .exp then { s with expPfx := v } else s
  | .toggleOrder => s

/-- States reachable from the initial component state through the UI. -/
inductive Reachable : UiState → Prop
  | init : Reachable uiInit
  | step (s : UiState) (e : UiEvent) : Reachable s → Reachable (uiStep s e)

/-- At most one of the three filter inputs is non-empty. -/
def atMostOneFilterNonempty (s : UiState) : Bool :=
  (s.year.isEmpty || (s.salaNum.isEmpty && s.expPfx.isEmpty)) &&
  (s.salaNum.isEmpty || (s.year.isEmpty && s.expPfx.isEmpty)) &&
  (s.expPfx.isEmpty || (s.year.isEmpty && s.salaNum.isEmpty))

/-- Strengthened inductive invariant: every input other than the active
tag's input is empty (and all are empty when no tag is active). -/
def FilterInv (s : UiState) : Prop :=
  (s.activeFilterType = some .year → s.salaNum = [] ∧ s.expPfx = []) ∧
  (s.activeFilterType = some .sala → s.year = [] ∧ s.expPfx = []) ∧
  (s.activeFilterType = some .exp → s.year = [] ∧ s.salaNum = []) ∧
  (s.activeFilterType = none → s.year = [] ∧ s.salaNum = [] ∧ s.expPfx = [])

/-! ### Query builders and order-by pinning -/

/-- Field name constants used by the current component. -/
def fldAno : String := "año"

/-- Field name: `sala_num`. -/
def fldSalaNum : String := "sala_num"

/-- Field name: `expediente`. -/
def fldExpediente : String := "expediente"

/-- Field names used by the legacy variant (src/unnamed/part_000). -/
def fldYear : String := "year"

/-- Legacy field name: `month`. -/
def fldMonth : String := "month"

/-- Legacy field name: `exp`. -/
def fldExp : String := "exp"

/-- The maximum-codepoint sentinel `""` appended to the prefix's
upper range bound. -/
def sentinel : Nat := 0xf8ff

/-- Models JS `Number(...)` on the digit strings the sala selector produces
(decimal digits accumulate; any other character is ignored). No claim
depends on the numeric value produced. -/
def jsNumber (s : List Nat) : Int :=
  s.foldl (fun acc c => if 48 ≤ c ∧ c ≤ 57 then acc * 10 + (Int.ofNat c - 48) else acc) 0

/-- Models JS `toLowerCase()` on the ASCII month names the legacy variant
passes through it. -/
def jsToLower (s : List Nat) : List Nat :=
  s.map (fun c => if 65 ≤ c ∧ c ≤ 90 then c + 32 else c)

/-- The `constraints` memo of the current component (src/src/components/
Table.tsx): apply only the active filter, and only when its input is
non-empty (JS truthiness of the input string). -/
def tsxConstraints (activeFilterType : Option FilterType)
    (year salaNum expPfx : List Nat) : List WhereFilter :=
  if activeFilterType = some .year ∧ year ≠ [] then
    [.eq fldAno (.s year)]
  else if activeFilterType = some .sala ∧ salaNum ≠ [] then
    [.eq fldSalaNum (.n (jsNumber salaNum))]
  else if activeFilterType = some .exp ∧ expPfx ≠ [] then
    [.ge fldExpediente (.s expPfx), .le fldExpediente (.s (expPfx ++ [sentinel]))]
  else []

/-- The `constraints` memo of the legacy variant (src/unnamed/part_000):
independent filters, each applied when its input is non-empty. -/
def legacyConstraints (year salaNum monthFilter expPfx : List Nat) : List WhereFilter :=
  (if year ≠ [] then [.eq fldYear (.s year)] else []) ++
  (if salaNum ≠ [] then [.eq fldSalaNum (.n (jsNumber salaNum))] else []) ++
  (if monthFilter ≠ [] then [.eq fldMonth (.s (jsToLower monthFilter))] else []) ++
  (if expPfx ≠ [] then
    [.ge fldExp (.s expPfx), .le fldExp (.s (expPfx ++ [sentinel]))]
   else [])

/-- The order-by pinning of `fetchPage` in the current component: the
selected sort field is overridden by the active filter's field. -/
def obFieldFor (activeFilterType : Option FilterType) (orderByField : String) : String :=
  match activeFilterType with
  | some .sala => fldSalaNum
  | some .year => fldAno
  | some .exp => fldExpediente
  | none => orderByField

/-- The order-by pinning of `fetchPage` in the legacy variant: the sort
field is overridden with `"exp"` exactly when the expediente filter input is
non-empty. -/
def legacyObField (expPfx : List Nat) (orderByField : String) : String :=
  if expPfx.isEmpty then orderByField else fldExp

/-! ### Concrete data for witnesses and counterexamples -/

/-- A bare document (used as an opaque cursor in counterexamples). -/
def d0 : Doc := { id := 0, fields := [] }

/-- A session state sitting past page 1 (non-empty cursor stack) with a
next cursor available. -/
def st1 : SessionState :=
  { rows := [], nextCursor := some d0, cursorStack := [d0], err := none }

/-- Sample document: año "2008". Codepoints 50,48,48,56 spell "2008". -/
def dA : Doc := { id := 1, fields := [(fldAno, .s [50, 48, 48, 56])] }

/-- Sample document: año "2009". -/
def dB : Doc := { id := 2, fields := [(fldAno, .s [50, 48, 48, 57])] }

/-- Sample document: año "2010". -/
def dC : Doc := { id := 3, fields := [(fldAno, .s [50, 48, 49, 48])] }

/-- A three-document sample collection. -/
def db3 : List Doc := [dB, dA, dC]

/-- A document whose expediente string "A￿" (codepoints 65, 0xffff)
begins with the prefix "A" = [65] but contains a codepoint above the
sentinel. -/
def dBad : Doc := { id := 9, fields := [(fldExpediente, .s ([65] ++ [0xffff]))] }

/-- A document with expediente "20" (codepoints 50, 48). -/
def dW : Doc := { id := 4, fields := [(fldExpediente, .s [50, 48])] }

/-! ## Theorems -/

/-! ### Shared helper lemmas -/

theorem pageOf_data (docs : List Doc) (ps : Nat) : (pageOf docs ps).data = docs.take ps := rfl

theorem pageOf_nextCursor (docs : List Doc) (ps : Nat) :
    (pageOf docs ps).nextCursor =
      match (docs.take ps).getLast? with
      | some d => if (docs.take ps).length = ps then some d else none
      | none => none := rfl

/-- C10: on a failed fetch, `fetchPage` surfaces the thrown `Error`'s own
message when the thrown value is an `Error` instance, and the fixed fallback
string "Error cargando datos" otherwise. -/
theorem c10_error_message (st : SessionState) (r : Bool) (sa : Option Doc) :
    (∀ m, (fetchPageStep st r sa (Except.error (Thrown.jsError m))).err = some m) ∧
    (fetchPageStep st r sa (Except.error Thrown.nonError)).err =
      some "Error cargando datos" :=
  ⟨fun _ => rfl, rfl⟩

/-- C8: when the active filter's input value is the empty string, the
`constraints` builder emits no predicate at all, whichever the active
filter variant is and whatever the other (inactive) inputs hold. -/
theorem c8_blank_input_no_predicates (year salaNum expPfx : List Nat) :
    tsxConstraints (some .year) [] salaNum expPfx = [] ∧
    tsxConstraints (some .sala) year [] expPfx = [] ∧
    tsxConstraints (some .exp) year salaNum [] = [] := by
  refine ⟨?_, ?_, ?_⟩ <;> simp [tsxConstraints]

/-- C4: when the expediente prefix filter is active with a non-empty prefix,
the order-by field passed to the store is pinned to the filtered field —
"expediente" in the current component, "exp" in the legacy variant —
regardless of the caller's selected sort field. -/
theorem c4_orderby_pinning (orderByField : String) (expPfx : List Nat)
    (h : expPfx ≠ []) :
    obFieldFor (some .exp) orderByField = fldExpediente ∧
    legacyObField expPfx orderByField = fldExp := by
  refine ⟨rfl, ?_⟩
  cases expPfx with
  | nil => exact absurd rfl h
  | cons a as => rfl

theorem c4_orderby_pinning_witness :
    obFieldFor (some .exp) fldSalaNum = fldExpediente ∧
    legacyObField [50] fldSalaNum = fldExp :=
  c4_orderby_pinning fldSalaNum [50] (by decide)

/-- C1 counterexample: with a next cursor available and a store that throws,
`onNext` pushes the cursor onto `cursorStack` before the fetch, so after the
failed call the cursor stack differs from the pre-call stack — the claim
that the session state is unchanged on failure is false. -/
theorem c1_counterexample :
    (onNextStep (fun _ => Except.error Thrown.nonError) st1).cursorStack ≠
      st1.cursorStack := by decide

/-- C1 as amended: on a failed fetch, `rows` and `nextCursor` are always
left unchanged, and `fetchPage` itself leaves `cursorStack` unchanged; but
`onNext` appends the attempted cursor to the stack before fetching and
`onPrev` pops the top before fetching, so after a failed `onNext`/`onPrev`
the stack holds the already-applied push/pop. -/
theorem c1_amended (st : SessionState) (e : Thrown) (r : Bool) (sa : Option Doc) :
    ((fetchPageStep st r sa (Except.error e)).rows = st.rows ∧
     (fetchPageStep st r sa (Except.error e)).nextCursor = st.nextCursor ∧
     (fetchPageStep st r sa (Except.error e)).cursorStack = st.cursorStack) ∧
    (∀ c, st.nextCursor = some c →
      (onNextStep (fun _ => Except.error e) st).rows = st.rows ∧
      (onNextStep (fun _ => Except.error e) st).nextCursor = st.nextCursor ∧
      (onNextStep (fun _ => Except.error e) st).cursorStack = st.cursorStack ++ [c]) ∧
    (st.cursorStack ≠ [] →
      (onPrevStep (fun _ => Except.error e) st).rows = st.rows ∧
      (onPrevStep (fun _ => Except.error e) st).nextCursor = st.nextCursor ∧
      (onPrevStep (fun _ => Except.error e) st).cursorStack = st.cursorStack.dropLast) := by
  refine ⟨⟨rfl, rfl, rfl⟩, ?_, ?_⟩
  · intro c hc
    unfold onNextStep
    rw [hc]
    exact ⟨rfl, rfl, rfl⟩
  · intro h
    unfold onPrevStep
    rw [if_neg (by simpa [List.isEmpty_iff] using h)]
    exact ⟨rfl, rfl, rfl⟩

theorem c1_amended_witness :
    (onNextStep (fun _ => Except.error Thrown.nonError) st1).cursorStack =
      st1.cursorStack ++ [d0] ∧
    (onPrevStep (fun _ => Except.error Thrown.nonError) st1).cursorStack =
      st1.cursorStack.dropLast :=
  ⟨((c1_amended st1 Thrown.nonError false none).2.1 d0 rfl).2.2,
   ((c1_amended st1 Thrown.nonError false none).2.2 (by decide)).2.2⟩

/-- C6 counterexample: when the reset fetch triggered by an identity change
fails, the cursor stack is not emptied (the `setCursorStack` sits after the
`await` inside the `try`), refuting "always empties the cursor stack". -/
theorem c6_counterexample :
    (resetFetchStep (fun _ => Except.error Thrown.nonError) st1).cursorStack ≠
      [] := by decide

/-- C6 as amended: an identity change triggers `fetchPage(true)` with no
start-after position; if the store call succeeds the cursor stack is emptied
and the session shows page 1's records and cursor, while if it fails the
stack (and rows/cursor) are left exactly as they were — not emptied. -/
theorem c6_amended (st : SessionState) (g : Option Doc → Except Thrown Page) :
    (∀ p, g none = Except.ok p →
      (resetFetchStep g st).cursorStack = [] ∧
      (resetFetchStep g st).rows = p.data ∧
      (resetFetchStep g st).nextCursor = p.nextCursor) ∧
    (∀ e, g none = Except.error e →
      (resetFetchStep g st).cursorStack = st.cursorStack ∧
      (resetFetchStep g st).rows = st.rows ∧
      (resetFetchStep g st).nextCursor = st.nextCursor) := by
  constructor
  · intro p hp
    unfold resetFetchStep
    rw [hp]
    exact ⟨rfl, rfl, rfl⟩
  · intro e he
    unfold resetFetchStep
    rw [he]
    exact ⟨rfl, rfl, rfl⟩

theorem c6_amended_witness :
    (resetFetchStep (okFetch db3 1 fldAno SortDir.asc []) st1).cursorStack = [] :=
  ((c6_amended st1 (okFetch db3 1 fldAno SortDir.asc [])).1
    (getPaged db3 1 fldAno SortDir.asc none []) rfl).1

/-- C2: for every page returned by `getPaged` (the store rejects
non-positive limits, so every returned page was fetched with a positive
`pageSize`), the returned `nextCursor` is null if and only if the number of
records returned is strictly less than `pageSize`. -/
theorem c2_nextCursor_none_iff (db : List Doc) (pageSize : Nat) (orderByField : String)
    (dir : SortDir) (sa : Option Doc) (cs : List WhereFilter) (h : 0 < pageSize) :
    ((getPaged db pageSize orderByField dir sa cs).nextCursor = none ↔
     (getPaged db pageSize orderByField dir sa cs).data.length < pageSize) := by
  unfold getPaged
  rw [pageOf_nextCursor, pageOf_data]
  set l := (queryDocs db orderByField dir cs sa).take pageSize with hl
  rcases hgl : l.getLast? with _ | d
  · have hnil : l = [] := List.getLast?_eq_none_iff.mp hgl
    simp [hnil, h]
  · simp only [hgl]
    by_cases hlen : l.length = pageSize
    · simp [hlen]
    · have hle : l.length ≤ pageSize := hl ▸ List.length_take_le pageSize _
      simp only [if_neg hlen]
      simp only [true_iff]
      omega

theorem c2_nextCursor_none_iff_witness :
    0 < 1 ∧
    ((getPaged db3 1 fldAno SortDir.asc none []).nextCursor = none ↔
     (getPaged db3 1 fldAno SortDir.asc none []).data.length < 1) :=
  ⟨by decide, c2_nextCursor_none_iff db3 1 fldAno SortDir.asc none [] (by decide)⟩

/-- C9: whenever `getPaged` returns a non-null `nextCursor`, that cursor is
the snapshot of the last record of the returned page, and the page then
holds exactly `pageSize` records. -/
theorem c9_cursor_is_last_record (db : List Doc) (pageSize : Nat) (orderByField : String)
    (dir : SortDir) (sa : Option Doc) (cs : List WhereFilter) (c : Doc)
    (h : (getPaged db pageSize orderByField dir sa cs).nextCursor = some c) :
    (getPaged db pageSize orderByField dir sa cs).data.getLast? = some c ∧
    (getPaged db pageSize orderByField dir sa cs).data.length = pageSize := by
  unfold getPaged at h ⊢
  rw [pageOf_nextCursor] at h
  rw [pageOf_data]
  split at h
  next d heq =>
    split at h
    next hlen =>
      obtain rfl : d = c := by injection h
      exact ⟨heq, hlen⟩
    next hlen => exact absurd h (by simp)
  next heq => exact absurd h (by simp)

theorem c9_cursor_is_last_record_witness :
    (getPaged db3 1 fldAno SortDir.asc none []).data.getLast? = some dA ∧
    (getPaged db3 1 fldAno SortDir.asc none []).data.length = 1 :=
  c9_cursor_is_last_record db3 1 fldAno SortDir.asc none [] dA (by decide)

theorem lexLe_self_append (p t : List Nat) : lexLe p (p ++ t) = true := by
  induction p with
  | nil => rfl
  | cons a as ih => simp [lexLe, ih]

theorem lexLe_append_sentinel (p t : List Nat)
    (h : t = [] ∨ ∃ a t2, t = a :: t2 ∧ a < sentinel) :
    lexLe (p ++ t) (p ++ [sentinel]) = true := by
  induction p with
  | nil =>
    rcases h with h | ⟨a, t2, ht, ha⟩
    · subst h; rfl
    · subst ht; simp [lexLe, ha]
  | cons b bs ih => simp [lexLe, ih]

/-- C7 counterexample: for the active prefix "A" = [65] the builder emits
`expediente ≥ "A"` and `expediente ≤ "A" ++ [0xf8ff]`, but the stored
string "A" ++ [0xffff] begins with the prefix and still fails the upper
bound — the sentinel is not guaranteed to sort after every string sharing
the prefix. -/
theorem c7_counterexample :
    tsxConstraints (some .exp) [] [] [65] =
      [.ge fldExpediente (.s [65]), .le fldExpediente (.s ([65] ++ [sentinel]))] ∧
    matchesWhere dBad (.le fldExpediente (.s ([65] ++ [sentinel]))) = false := by
  decide

/-- C7 as amended: for every active prefix filter with non-empty prefix p,
the builder emits exactly two predicates, field ≥ p and
field ≤ p ++ [0xf8ff] (field "expediente" in the current component, "exp"
in the legacy variant); every stored string that equals p, or continues
after p with a character of codepoint below the 0xf8ff sentinel, satisfies
both predicates (a continuation starting at or above the sentinel need
not). -/
theorem c7_amended (p y s : List Nat) (hp : p ≠ []) :
    (tsxConstraints (some .exp) y s p =
      [.ge fldExpediente (.s p), .le fldExpediente (.s (p ++ [sentinel]))]) ∧
    (legacyConstraints [] [] [] p =
      [.ge fldExp (.s p), .le fldExp (.s (p ++ [sentinel]))]) ∧
    (∀ (d : Doc) (t : List Nat), getField d fldExpediente = some (.s (p ++ t)) →
      (t = [] ∨ ∃ a t2, t = a :: t2 ∧ a < sentinel) →
      matchesWhere d (.ge fldExpediente (.s p)) = true ∧
      matchesWhere d (.le fldExpediente (.s (p ++ [sentinel]))) = true) := by
  refine ⟨?_, ?_, ?_⟩
  · simp [tsxConstraints, hp]
  · simp [legacyConstraints, hp]
  · intro d t hd ht
    constructor
    · simp [matchesWhere, hd, fsLe, lexLe_self_append]
    · simp [matchesWhere, hd, fsLe, lexLe_append_sentinel p t ht]

theorem c7_amended_witness :
    matchesWhere dW (.ge fldExpediente (.s [50])) = true ∧
    matchesWhere dW (.le fldExpediente (.s ([50] ++ [sentinel]))) = true :=
  (c7_amended [50] [] [] (by decide)).2.2 dW [48] rfl (Or.inr ⟨48, [], rfl, by decide⟩)

theorem filterInv_init : FilterInv uiInit := by
  refine ⟨fun h => ?_, fun h => ?_, fun h => ?_, fun _ => ⟨rfl, rfl, rfl⟩⟩ <;>
    simp [uiInit] at h

theorem filterInv_step (s : UiState) (e : UiEvent) (h : FilterInv s) :
    FilterInv (uiStep s e) := by
  obtain ⟨h1, h2, h3, h4⟩ := h
  cases e with
  | clickYear =>
    refine ⟨fun _ => ⟨rfl, rfl⟩, fun hc => ?_, fun hc => ?_, fun hc => ?_⟩ <;>
      simp [uiStep] at hc
  | clickSala =>
    refine ⟨fun hc => ?_, fun _ => ⟨rfl, rfl⟩, fun hc => ?_, fun hc => ?_⟩ <;>
      simp [uiStep] at hc
  | clickExp =>
    refine ⟨fun hc => ?_, fun hc => ?_, fun _ => ⟨rfl, rfl⟩, fun hc => ?_⟩ <;>
      simp [uiStep] at hc
  | clickNoFilter =>
    refine ⟨fun hc => ?_, fun hc => ?_, fun hc => ?_, fun _ => ⟨rfl, rfl, rfl⟩⟩ <;>
      simp [uiStep] at hc
  | typeYear v =>
    by_cases hy : s.activeFilterType = some .year
    · simp only [uiStep, if_pos hy]
      refine ⟨fun _ => h1 hy, fun hc => ?_, fun hc => ?_, fun hc => ?_⟩ <;>
        simp [hy] at hc
    · simp only [uiStep, if_neg hy]
      exact ⟨h1, h2, h3, h4⟩
  | typeSala v =>
    by_cases hy : s.activeFilterType = some .sala
    · simp only [uiStep, if_pos hy]
      refine ⟨fun hc => ?_, fun _ => h2 hy, fun hc => ?_, fun hc => ?_⟩ <;>
        simp [hy] at hc
    · simp only [uiStep, if_neg hy]
      exact ⟨h1, h2, h3, h4⟩
  | typeExp v =>
    by_cases hy : s.activeFilterType = some .exp
    · simp only [uiStep, if_pos hy]
      refine ⟨fun hc => ?_, fun hc => ?_, fun _ => h3 hy, fun hc => ?_⟩ <;>
        simp [hy] at hc
    · simp only [uiStep, if_neg hy]
      exact ⟨h1, h2, h3, h4⟩
  | toggleOrder => exact ⟨h1, h2, h3, h4⟩

theorem filterInv_reachable (s : UiState) (h : Reachable s) : FilterInv s := by
  induction h with
  | init => exact filterInv_init
  | step s e _ ih => exact filterInv_step s e ih

theorem filterInv_atMostOne (s : UiState) (h : FilterInv s) :
    atMostOneFilterNonempty s = true := by
  obtain ⟨h1, h2, h3, h4⟩ := h
  unfold atMostOneFilterNonempty
  rcases hft : s.activeFilterType with _ | ft
  · obtain ⟨hy, hs, he⟩ := h4 hft
    simp [hy, hs, he]
  · cases ft with
    | year =>
      obtain ⟨hs, he⟩ := h1 hft
      simp [hs, he]
    | sala =>
      obtain ⟨hy, he⟩ := h2 hft
      simp [hy, he]
    | exp =>
      obtain ⟨hy, hs⟩ := h3 hft
      simp [hy, hs]

/-- C3: in every state of the filter-selection component reachable from the
initial state, at most one of the filter inputs {year, sala number,
expediente prefix} is non-empty; and activating one filter variant always
clears the other filter inputs. -/
theorem c3_filter_exclusivity :
    (∀ s : UiState, Reachable s → atMostOneFilterNonempty s = true) ∧
    (∀ s : UiState,
      ((uiStep s .clickYear).salaNum = [] ∧ (uiStep s .clickYear).expPfx = []) ∧
      ((uiStep s .clickSala).year = [] ∧ (uiStep s .clickSala).expPfx = []) ∧
      ((uiStep s .clickExp).year = [] ∧ (uiStep s .clickExp).salaNum = []) ∧
      ((uiStep s .clickNoFilter).year = [] ∧ (uiStep s .clickNoFilter).salaNum = [] ∧
        (uiStep s .clickNoFilter).expPfx = [])) :=
  ⟨fun s h => filterInv_atMostOne s (filterInv_reachable s h),
   fun _ => ⟨⟨rfl, rfl⟩, ⟨rfl, rfl⟩, ⟨rfl, rfl⟩, ⟨rfl, rfl, rfl⟩⟩⟩

theorem c3_filter_exclusivity_witness :
    atMostOneFilterNonempty
      (uiStep (uiStep uiInit UiEvent.clickYear) (UiEvent.typeYear [50, 48, 48, 57])) =
      true :=
  c3_filter_exclusivity.1 _
    (Reachable.step _ _ (Reachable.step _ _ Reachable.init))

theorem resetFetch_ok (p : Option Doc → Page) (st : SessionState) :
    resetFetchStep (fun sa => Except.ok (p sa)) st = stateForFetch p [] := rfl

theorem next_stateFor (p : Option Doc → Page) (s : List Doc) :
    onNextStep (fun sa => Except.ok (p sa)) (stateForFetch p s) =
      match (p s.getLast?).nextCursor with
      | none => stateForFetch p s
      | some c => stateForFetch p (s ++ [c]) := by
  rcases hc : (p s.getLast?).nextCursor with _ | c
  · simp [onNextStep, stateForFetch, hc]
  · simp only [hc]
    simp [onNextStep, stateForFetch, hc, fetchPageStep, List.getLast?_concat]

theorem prev_stateFor (p : Option Doc → Page) (s : List Doc) :
    onPrevStep (fun sa => Except.ok (p sa)) (stateForFetch p s) =
      stateForFetch p s.dropLast := by
  by_cases hs : s = []
  · subst hs
    rfl
  · unfold onPrevStep
    rw [if_neg (by simpa [stateForFetch, List.isEmpty_iff] using hs)]
    simp [fetchPageStep, stateForFetch]

theorem nextN_stateFor (p : Option Doc → Page) (n : Nat) (s : List Doc) :
    ∃ s2 : List Doc,
      (onNextStep (fun sa => Except.ok (p sa)))^[n] (stateForFetch p s) =
        stateForFetch p s2 ∧ s2.length ≤ s.length + n := by
  induction n generalizing s with
  | zero => exact ⟨s, rfl, by omega⟩
  | succ n ih =>
    rw [Function.iterate_succ_apply, next_stateFor]
    rcases hc : (p s.getLast?).nextCursor with _ | c
    · obtain ⟨s2, h1, h2⟩ := ih s
      exact ⟨s2, h1, by omega⟩
    · obtain ⟨s2, h1, h2⟩ := ih (s ++ [c])
      refine ⟨s2, h1, ?_⟩
      simp only [List.length_append, List.length_cons, List.length_nil] at h2
      omega

theorem prevN_stateFor (p : Option Doc → Page) (n : Nat) (s : List Doc)
    (h : s.length ≤ n) :
    (onPrevStep (fun sa => Except.ok (p sa)))^[n] (stateForFetch p s) =
      stateForFetch p [] := by
  induction n generalizing s with
  | zero =>
    obtain rfl : s = [] := List.length_eq_zero.mp (Nat.le_zero.mp h)
    rfl
  | succ n ih =>
    rw [Function.iterate_succ_apply, prev_stateFor]
    exact ih s.dropLast (by rw [List.length_dropLast]; omega)

/-- C5: starting from a fresh first-page fetch, any run of n `onNext` calls
(each made while a next cursor is available) followed by n `onPrev` calls
ends showing exactly the record list of the original first page, the store's
contents and ordering being unchanged between calls (the same `getPaged`
plan serves every fetch). -/
theorem c5_back_forward_inverse (db : List Doc) (pageSize : Nat) (orderByField : String)
    (dir : SortDir) (cs : List WhereFilter) (st : SessionState) (n : Nat)
    (_h : ∀ k, k < n →
      ((onNextStep (okFetch db pageSize orderByField dir cs))^[k]
        (resetFetchStep (okFetch db pageSize orderByField dir cs) st)).nextCursor ≠
        none) :
    ((onPrevStep (okFetch db pageSize orderByField dir cs))^[n]
      ((onNextStep (okFetch db pageSize orderByField dir cs))^[n]
        (resetFetchStep (okFetch db pageSize orderByField dir cs) st))).rows =
      (resetFetchStep (okFetch db pageSize orderByField dir cs) st).rows := by
  have hfe : okFetch db pageSize orderByField dir cs =
      fun sa => Except.ok (getPaged db pageSize orderByField dir sa cs) := rfl
  rw [hfe, resetFetch_ok]
  obtain ⟨s2, h1, h2⟩ :=
    nextN_stateFor (fun sa => getPaged db pageSize orderByField dir sa cs) n []
  rw [h1]
  rw [prevN_stateFor _ n s2 (by simpa using h2)]

theorem c5_back_forward_inverse_witness :
    (∀ k, k < 2 →
      ((onNextStep (okFetch db3 1 fldAno SortDir.asc []))^[k]
        (resetFetchStep (okFetch db3 1 fldAno SortDir.asc []) st1)).nextCursor ≠
        none) ∧
    ((onPrevStep (okFetch db3 1 fldAno SortDir.asc []))^[2]
      ((onNextStep (okFetch db3 1 fldAno SortDir.asc []))^[2]
        (resetFetchStep (okFetch db3 1 fldAno SortDir.asc []) st1))).rows =
      (resetFetchStep (okFetch db3 1 fldAno SortDir.asc []) st1).rows :=
  ⟨by decide, c5_back_forward_inverse db3 1 fldAno SortDir.asc [] st1 2 (by decide)⟩

end TsjApp
